import Mathlib

set_option linter.unusedVariables false

/-!
Verification of the conduit-vite federation core against its specification.

The development shallowly embeds the outbound sending service
(src/service/sending/mod.rs) and the inbound event pipeline
(src/service/rooms/event_handler/pipeline/{validation,auth,stateres}.rs).
External collaborators (the ruma crates, the storage engine, the network)
are passed in as explicit function parameters or modelled records, exactly
at the boundaries where the source calls them.
-/

namespace Sending

/-- Byte strings (Vec<u8> in the source) are modelled as lists of naturals. -/
abbrev Bytes := List Nat

/-- Embeds enum SendingEventType (sending/mod.rs): a queued item is either a
reference to a persisted pdu (its pdu id bytes) or a self-contained edu json
payload. -/
inductive SendingEventType
  | pdu (bytes : Bytes)
  | edu (bytes : Bytes)
deriving DecidableEq, Repr

/-- Embeds enum OutgoingKind (sending/mod.rs): a delivery destination. -/
inductive OutgoingKind
  | appservice (id : String)
  | push (user : String) (pushkey : String)
  | normal (server : String)
deriving DecidableEq, Repr

/-- Embeds enum TransactionStatus (sending/mod.rs). Instants are modelled as
seconds (Nat); Running carries the events folded in while in flight. -/
inductive TransactionStatus
  | running (events : List SendingEventType)
  | failed (tries : Nat) (time : Nat)
  | retrying (tries : Nat)
deriving DecidableEq, Repr

/-- Embeds the min_elapsed_duration computation used by both select_events
and the interval sweep: Duration::from_secs(30) * tries * tries, capped at
24 hours (86400 s). -/
def minElapsedSecs (tries : Nat) : Nat :=
  let d := 30 * tries * tries
  if d > 86400 then 86400 else d

/-- Result of one select_events call for a single destination: the value left
in the current_transaction_status entry, the (event, key) pairs passed to
db.mark_as_active, and the batch handed to handle_events (none when the call
returned Ok(None), i.e. no new request is issued). -/
structure SelectOutcome where
  status : Option TransactionStatus
  markedActive : List (SendingEventType × Bytes)
  batch : Option (List SendingEventType)
deriving DecidableEq, Repr

/-- Embeds Service::select_events (sending/mod.rs lines 250-325) for one
destination. Inputs: the current status entry for the destination, the
newly received (event, key) pairs, the db's active_requests_for list for the
destination (read only on the retry path), the select_edus result
(serialized; only consulted for Normal destinations off the retry path),
and the current time. The HashMap entry().and_modify().or_insert_with()
sequence is translated case by case. -/
def select_events (kind : OutgoingKind) (status : Option TransactionStatus)
    (newEvents : List (SendingEventType × Bytes))
    (activeForKind : List SendingEventType)
    (edus : List SendingEventType) (now : Nat) : SelectOutcome :=
  let entry : TransactionStatus × Bool × Bool :=
    match status with
    | none => (.running [], true, false)
    | some (.running es) => (.running (es ++ newEvents.map Prod.fst), false, false)
    | some (.retrying n) => (.retrying n, true, false)
    | some (.failed tries time) =>
        if now - time < minElapsedSecs tries then (.failed tries time, false, false)
        else (.retrying tries, true, true)
  match entry with
  | (st, allow, retry) =>
    if !allow then ⟨some st, [], none⟩
    else if retry then
      ⟨some st, newEvents, some (activeForKind ++ newEvents.map Prod.fst)⟩
    else
      let isNormal := match kind with | .normal _ => true | _ => false
      ⟨some st, newEvents, some (newEvents.map Prod.fst ++ (if isNormal then edus else []))⟩

/-- Embeds the interval-tick sweep test (sending/mod.rs lines 219-234): a
destination is put on the retry list only when its status is Failed and the
backoff has expired; Running and Retrying destinations are never swept. -/
def sweep_ready (status : TransactionStatus) (now : Nat) : Bool :=
  match status with
  | .failed tries time => !(now - time < minElapsedSecs tries)
  | _ => false

/-- Models the durable outbound queue owned by the sending Data trait
(`mod data`, whose implementation lives outside the provided sources; spec
section 6: enqueue / mark_active / active_items / delete_active). Entries in
insertion order. -/
structure Db where
  queued : List (OutgoingKind × SendingEventType × Bytes)
  active : List (OutgoingKind × SendingEventType × Bytes)
deriving DecidableEq, Repr

/-- Modelled from the spec: db.queue_requests appends items to the durable
queue under fresh keys (spec section 6, enqueue(destination, item)); the keys
are supplied by the caller here. -/
def queue_requests (db : Db) (reqs : List (OutgoingKind × SendingEventType × Bytes)) : Db :=
  { db with queued := db.queued ++ reqs }

/-- Modelled from the spec: db.mark_as_active moves the given keyed events of
one destination from the durable queue to the active table (spec section 6,
mark_active(items)). -/
def mark_as_active (db : Db) (kind : OutgoingKind)
    (events : List (SendingEventType × Bytes)) : Db :=
  { queued := db.queued.filter (fun r => !(events.map Prod.snd).contains r.2.2),
    active := db.active ++ events.map (fun (e, k) => (kind, e, k)) }

/-- Modelled from the spec: db.delete_all_active_requests_for removes every
active entry for the destination (spec section 6, delete_active). -/
def delete_all_active_requests_for (db : Db) (kind : OutgoingKind) : Db :=
  { db with active := db.active.filter (fun r => r.1 ≠ kind) }

/-- Modelled from the spec: db.queued_requests streams the durably queued
(event, key) pairs of one destination in queue order. -/
def queued_requests (db : Db) (kind : OutgoingKind) : List (SendingEventType × Bytes) :=
  (db.queued.filter (fun r => r.1 = kind)).map (fun r => (r.2.1, r.2.2))

/-- Modelled from the spec: db.active_requests_for streams the active
(key, event) pairs of one destination. -/
def active_requests_for (db : Db) (kind : OutgoingKind) : List (SendingEventType × Bytes) :=
  (db.active.filter (fun r => r.1 = kind)).map (fun r => (r.2.1, r.2.2))

/-- Association-list lookup for the initial_transactions map built during
handler startup. -/
def lookupKind (m : List (OutgoingKind × List SendingEventType)) (k : OutgoingKind) :
    List SendingEventType :=
  match m with
  | [] => []
  | (k', v) :: rest => if k' = k then v else lookupKind rest k

/-- Association-list update (entry().or_default() then push) for the
initial_transactions map. -/
def setKind (m : List (OutgoingKind × List SendingEventType)) (k : OutgoingKind)
    (v : List SendingEventType) : List (OutgoingKind × List SendingEventType) :=
  match m with
  | [] => [(k, v)]
  | (k', v') :: rest => if k' = k then (k, v) :: rest else (k', v') :: setKind rest k v

/-- One iteration of the handler startup loop (sending/mod.rs lines 132-147):
for an active request (key, outgoing_kind, event), if the destination has
already accumulated more than 30 recovered events the request is deleted
from the db (its key is recorded in the second component); otherwise the
event is pushed onto the destination's initial transaction. -/
def handler_init_step (acc : List (OutgoingKind × List SendingEventType) × List Bytes)
    (req : Bytes × OutgoingKind × SendingEventType) :
    List (OutgoingKind × List SendingEventType) × List Bytes :=
  let entry := lookupKind acc.1 req.2.1
  if entry.length > 30 then (acc.1, acc.2 ++ [req.1])
  else (setKind acc.1 req.2.1 (entry ++ [req.2.2]), acc.2)

/-- Embeds the handler startup recovery loop over db.active_requests():
returns the initial transactions per destination and the keys of the active
requests that were deleted ("Dropping some current events"). -/
def handler_init (active : List (Bytes × OutgoingKind × SendingEventType)) :
    List (OutgoingKind × List SendingEventType) × List Bytes :=
  active.foldl handler_init_step ([], [])

/-- Association-list lookup for current_transaction_status. -/
def statusOf (m : List (OutgoingKind × TransactionStatus)) (k : OutgoingKind) :
    Option TransactionStatus :=
  match m with
  | [] => none
  | (k', v) :: rest => if k' = k then some v else statusOf rest k

/-- HashMap::insert on current_transaction_status. -/
def setStatus (m : List (OutgoingKind × TransactionStatus)) (k : OutgoingKind)
    (v : TransactionStatus) : List (OutgoingKind × TransactionStatus) :=
  match m with
  | [] => [(k, v)]
  | (k', v') :: rest => if k' = k then (k, v) :: rest else (k', v') :: setStatus rest k v

/-- HashMap::remove on current_transaction_status. -/
def removeStatus (m : List (OutgoingKind × TransactionStatus)) (k : OutgoingKind) :
    List (OutgoingKind × TransactionStatus) :=
  match m with
  | [] => []
  | (k', v') :: rest => if k' = k then rest else (k', v') :: removeStatus rest k

/-- The handler's mutable state: the per-destination status map plus the
durable queue db. -/
structure HandlerState where
  statuses : List (OutgoingKind × TransactionStatus)
  db : Db
deriving DecidableEq, Repr

/-- Embeds the Ok(outgoing_kind) arm of the handler response match
(sending/mod.rs lines 158-197): delete the delivered active requests, take
the events folded into the Running status while the transaction was in
flight, append up to 30 newly queued db events (marking them active), and
either start exactly one follow-up transaction (returned batch) or drop the
destination's status entry. -/
def handle_response_ok (kind : OutgoingKind) (st : HandlerState) :
    HandlerState × Option (List SendingEventType) :=
  let db1 := delete_all_active_requests_for st.db kind
  let memEvents : List SendingEventType :=
    match statusOf st.statuses kind with
    | some (.running es) => es
    | _ => []
  let newDbEvents := (queued_requests db1 kind).take 30
  let db2 := if newDbEvents.isEmpty then db1 else mark_as_active db1 kind newDbEvents
  let pending := memEvents ++ newDbEvents.map Prod.fst
  if pending.isEmpty then
    ({ statuses := removeStatus st.statuses kind, db := db2 }, none)
  else
    ({ statuses := setStatus st.statuses kind (.running []), db := db2 }, some pending)

/-- Embeds the Err((outgoing_kind, _)) arm of the handler response match
(sending/mod.rs lines 198-207): entry().and_modify() flips Running to
Failed(1, now) and Retrying(n) to Failed(n+1, now); an already Failed entry
is left unchanged (the closure logs and returns early) and a missing entry
is not created. The db is untouched. -/
def handle_response_err (kind : OutgoingKind) (st : HandlerState) (now : Nat) : HandlerState :=
  let statuses :=
    match statusOf st.statuses kind with
    | some (.running _) => setStatus st.statuses kind (.failed 1 now)
    | some (.retrying n) => setStatus st.statuses kind (.failed (n + 1) now)
    | some (.failed n t) => st.statuses
    | none => st.statuses
  { st with statuses := statuses }

/-- Embeds the receiver.recv() arm of the handler loop (sending/mod.rs lines
210-218) for one received (event, key): run select_events and apply its
status update and db marking; the returned batch, when present, is pushed as
a new handle_events future. -/
def handle_receive (kind : OutgoingKind) (event : SendingEventType) (key : Bytes)
    (edus : List SendingEventType) (now : Nat) (st : HandlerState) :
    HandlerState × Option (List SendingEventType) :=
  let out := select_events kind (statusOf st.statuses kind) [(event, key)]
      (active_requests_for st.db kind |>.map Prod.fst) edus now
  let statuses :=
    match out.status with
    | some s => setStatus st.statuses kind s
    | none => removeStatus st.statuses kind
  ({ statuses := statuses, db := mark_as_active st.db kind out.markedActive }, out.batch)

/-- Embeds the enqueue entry points (send_pdu and friends, sending/mod.rs):
the item is first durably queued via db.queue_requests, then sent through
the channel and handled by the receiver arm. -/
def enqueue_and_receive (kind : OutgoingKind) (event : SendingEventType) (key : Bytes)
    (edus : List SendingEventType) (now : Nat) (st : HandlerState) :
    HandlerState × Option (List SendingEventType) :=
  handle_receive kind event key edus now
    { st with db := queue_requests st.db [(kind, event, key)] }

/-- Embeds the payload extraction used for the transaction id in both
handle_events branches (sending/mod.rs lines 563-576 and 704-722): the match
maps Edu(b) and Pdu(b) alike to the raw bytes. -/
def event_bytes : SendingEventType → Bytes
  | .pdu b => b
  | .edu b => b

/-- Modelled from the spec: utils::calculate_hash lives in src/utils, which
is outside the provided sources. It hashes the 0xff-joined payload list; the
model returns the joined list itself, since every claim about it depends
only on it being a pure function of the payload byte lists. -/
def calculate_hash (keys : List Bytes) : Bytes :=
  List.intercalate [255] keys

/-- Embeds the txn_id expression of the Appservice branch of handle_events
(sending/mod.rs lines 563-576): the base64 engine is the external base64
crate, passed as the encode parameter; the hash is utils::calculate_hash,
passed as the hash parameter. -/
def appservice_txn_id (hash : List Bytes → Bytes) (encode : Bytes → String)
    (events : List SendingEventType) : String :=
  encode (hash (events.map event_bytes))

/-- Embeds the transaction_id expression of the Normal (federation) branch of
handle_events (sending/mod.rs lines 704-722); textually the same computation
as the appservice branch. -/
def normal_txn_id (hash : List Bytes → Bytes) (encode : Bytes → String)
    (events : List SendingEventType) : String :=
  encode (hash (events.map event_bytes))

end Sending

namespace Validation

/-- Canonical JSON values, coarse: the pipeline only inspects integers
(origin_server_ts); everything else is opaque. -/
inductive CVal
  | int (i : Int)
  | str (s : String)
  | other
deriving DecidableEq, Repr

/-- Canonical JSON object (BTreeMap<String, CanonicalJsonValue>) as an
association list with unique keys. -/
abbrev CJson := List (String × CVal)

/-- BTreeMap::remove of one key. -/
def removeKey (j : CJson) (k : String) : CJson :=
  j.filter (fun p => p.1 ≠ k)

/-- BTreeMap::get. -/
def getKey (j : CJson) (k : String) : Option CVal :=
  match j with
  | [] => none
  | (k', v) :: rest => if k' = k then some v else getKey rest k

/-- Embeds ruma::signatures::Verified: All = signature and content hash both
valid; Signatures = signature valid but content hash mismatched. -/
inductive Verified
  | all
  | signatures
deriving DecidableEq, Repr

/-- Error outcomes of validate_pdu, one per return Err site in the source. -/
inductive VErr
  | invalidPdu
  | signingKeysFailed
  | missingTs
  | tsNotInt
  | tsBeforeEpoch
  | sigVerificationFailed
  | redactionFailed
  | eventKnown
deriving DecidableEq, Repr

/-- External collaborators of validate_pdu
(pipeline/validation.rs): the ruma format check, the signing-key fetch, the
signature/hash verification over the filtered key map, the ruma redaction,
and the local timeline lookup get_pdu_json(event_id).is_some(). -/
structure Env where
  checkFormat : CJson → Bool
  fetchSigningKeysOk : Bool
  verify : CJson → Option Verified
  redactFn : CJson → Option CJson
  knownPduJson : Bool

/-- Embeds validate_pdu (pipeline/validation.rs lines 38-136): strip
unsigned, check the event format, fetch signing keys, read and range-check
origin_server_ts, then verify: an invalid signature is rejected; Signatures
(hash mismatch) redacts the event and rejects it when the event id is
already known locally; All returns the value unchanged. -/
def validate_pdu (env : Env) (content : CJson) : Except VErr CJson :=
  let value := removeKey content "unsigned"
  if !(env.checkFormat value) then .error .invalidPdu
  else if !env.fetchSigningKeysOk then .error .signingKeysFailed
  else
    match getKey value "origin_server_ts" with
    | none => .error .missingTs
    | some (.str _) => .error .tsNotInt
    | some .other => .error .tsNotInt
    | some (.int ts) =>
      if ts < 0 then .error .tsBeforeEpoch
      else
        match env.verify value with
        | none => .error .sigVerificationFailed
        | some .signatures =>
          match env.redactFn value with
          | none => .error .redactionFailed
          | some obj =>
            if env.knownPduJson then .error .eventKnown
            else .ok obj
        | some .all => .ok value

/-- Sample collaborator record used to instantiate the redaction-safety
theorem at a concrete input. -/
def envW (known : Bool) : Env :=
  { checkFormat := fun _ => true,
    fetchSigningKeysOk := true,
    verify := fun _ => some .signatures,
    redactFn := fun j => some (removeKey j "content"),
    knownPduJson := known }

/-- Sample pdu content for the redaction-safety witness. -/
def contentW : CJson :=
  [("content", .str "hello"), ("origin_server_ts", .int 5), ("unsigned", .other)]

end Validation

namespace Auth

/-- Embeds the PduEvent fields read by authorize_pdu (pipeline/auth.rs). -/
structure PduEvent where
  event_id : String
  kind : String
  state_key : Option String
  room_id : Option String
  auth_events : List String
deriving DecidableEq, Repr

/-- The local timeline (services().rooms.timeline.get_pdu) as an association
list from event id to stored event. -/
abbrev Store := List (String × PduEvent)

/-- Lookup in the timeline store. -/
def getStore (s : Store) (id : String) : Option PduEvent :=
  match s with
  | [] => none
  | (id', e) :: rest => if id' = id then some e else getStore rest id

/-- HashMap insert (overwrite) keyed by (StateEventType, state_key). -/
def insertTK (m : List ((String × String) × PduEvent)) (k : String × String)
    (v : PduEvent) : List ((String × String) × PduEvent) :=
  match m with
  | [] => [(k, v)]
  | (k', v') :: rest => if k' = k then (k, v) :: rest else (k', v') :: insertTK rest k v

/-- HashMap insert (overwrite) keyed by event id. -/
def insertId (m : List (String × PduEvent)) (k : String) (v : PduEvent) :
    List (String × PduEvent) :=
  match m with
  | [] => [(k, v)]
  | (k', v') :: rest => if k' = k then (k, v) :: rest else (k', v') :: insertId rest k v

/-- Lookup keyed by (StateEventType, state_key). -/
def lookupTK (m : List ((String × String) × PduEvent)) (k : String × String) :
    Option PduEvent :=
  match m with
  | [] => none
  | (k', v) :: rest => if k' = k then some v else lookupTK rest k

/-- Lookup keyed by event id. -/
def lookupId (m : List (String × PduEvent)) (k : String) : Option PduEvent :=
  match m with
  | [] => none
  | (k', v) :: rest => if k' = k then some v else lookupId rest k

/-- The two auth-event maps built by authorize_pdu. -/
structure AuthMaps where
  byTypeKey : List ((String × String) × PduEvent)
  byEventId : List (String × PduEvent)
deriving DecidableEq, Repr

/-- Embeds the insert_auth_event closure (pipeline/auth.rs lines 21-46): a
missing auth event is skipped with a warning and the closure returns Ok
(some m, maps unchanged); a stored event is inserted into both maps; the
expect on the state key aborts the process (none). -/
def insert_auth_event (store : Store) (m : AuthMaps) (id : String) : Option AuthMaps :=
  match getStore store id with
  | none => some m
  | some e =>
    match e.state_key with
    | some sk =>
      some { byTypeKey := insertTK m.byTypeKey (e.kind, sk) e,
             byEventId := insertId m.byEventId e.event_id e }
    | none => none

/-- The loop over pdu.auth_events calling insert_auth_event with the `?`
operator. -/
def insert_auth_events (store : Store) (m : AuthMaps) (ids : List String) :
    Option AuthMaps :=
  match ids with
  | [] => some m
  | id :: rest =>
    match insert_auth_event store m id with
    | none => none
    | some m' => insert_auth_events store m' rest

/-- Embeds ruma RoomId::strip_sigil: drops the leading sigil character. -/
def stripSigil (s : String) : String := s.drop 1

/-- Outcomes of authorize_pdu, one per exit of the source function; panicked
models the expect() abort. -/
inductive AuthOutcome
  | accepted
  | authCheckFailed
  | invalidEventId
  | panicked
deriving DecidableEq, Repr

/-- External collaborators of authorize_pdu: the timeline store, the room
version rules flag room_create_event_id_as_room_id, ruma EventId::parse
(modelled as a success test), and the two opaque versioned rule functions
state_res::check_state_(in)dependent_auth_rules, which receive the lookup
closures over the partial maps. -/
structure AuthEnv where
  store : Store
  roomCreateAsRoomId : Bool
  parseEventId : String → Bool
  checkIndep : (String → Option PduEvent) → Bool
  checkDep : (String → String → Option PduEvent) → Bool

/-- Embeds authorize_pdu (pipeline/auth.rs lines 11-90): build the auth-event
maps from pdu.auth_events (missing ids silently skipped), optionally insert
the create event derived from the room id, then run the state-independent
and state-dependent rule checks against the partial maps. -/
def authorize_pdu (env : AuthEnv) (pdu : PduEvent) : AuthOutcome :=
  match insert_auth_events env.store ⟨[], []⟩ pdu.auth_events with
  | none => .panicked
  | some m1 =>
    let afterCreate : Option (Option AuthMaps) :=
      if env.roomCreateAsRoomId then
        match pdu.room_id with
        | some rid =>
          let eid := "$" ++ stripSigil rid
          if env.parseEventId eid then
            match insert_auth_event env.store m1 eid with
            | none => some none
            | some m2 => some (some m2)
          else none
        | none => some (some m1)
      else some (some m1)
    match afterCreate with
    | none => .invalidEventId
    | some none => .panicked
    | some (some m2) =>
      if !(env.checkIndep (fun id => lookupId m2.byEventId id)) ||
          !(env.checkDep (fun k s => lookupTK m2.byTypeKey (k, s))) then
        .authCheckFailed
      else .accepted

/-- One found auth event inserted into both maps (the body of the insert
closure once the store lookup and the state-key expect have succeeded). -/
def insertFound (m : AuthMaps) (e : PduEvent) : AuthMaps :=
  match e.state_key with
  | some sk =>
    { byTypeKey := insertTK m.byTypeKey (e.kind, sk) e,
      byEventId := insertId m.byEventId e.event_id e }
  | none => m

/-- The auth maps that the insertion loop produces when no insert panics:
the fold over exactly the locally found auth events. -/
def foundAuthMaps (found : List PduEvent) : AuthMaps :=
  found.foldl insertFound ⟨[], []⟩

/-- Decidable form of "every locally stored auth event of the pdu has a
state key". -/
def storedAuthEventsHaveStateKeys (store : Store) (ids : List String) : Bool :=
  ids.all (fun id =>
    match getStore store id with
    | some e => e.state_key.isSome
    | none => true)

/-- Sample timeline store for the authorization witness: one stored auth
event. -/
def storeW : Store :=
  [("$a", ⟨"$a", "m.room.create", some "", none, []⟩)]

/-- Sample pdu for the authorization witness: one of its two auth events is
not stored locally. -/
def pduW : PduEvent :=
  ⟨"$e", "m.room.message", none, some "!r", ["$a", "$missing"]⟩

/-- Sample collaborator record for the authorization witness. -/
def envAuthW : AuthEnv :=
  { store := storeW,
    roomCreateAsRoomId := false,
    parseEventId := fun _ => true,
    checkIndep := fun f => (f "$a").isSome,
    checkDep := fun _ => true }

end Auth

namespace StateRes

/-- Embeds the PduEvent fields read by resolve_state (pipeline/stateres.rs). -/
structure StatePdu where
  event_id : String
  kind : String
  state_key : Option String
  prev_events : List String
deriving DecidableEq, Repr

/-- HashMap<u64 shortstatekey, Arc<EventId>> as an association list. -/
abbrev ShortStateMap := List (Nat × String)

/-- HashMap insert (overwrite). -/
def insertShort (m : ShortStateMap) (k : Nat) (v : String) : ShortStateMap :=
  match m with
  | [] => [(k, v)]
  | (k', v') :: rest => if k' = k then (k, v) :: rest else (k', v') :: insertShort rest k v

/-- HashMap get. -/
def lookupShort (m : ShortStateMap) (k : Nat) : Option String :=
  match m with
  | [] => none
  | (k', v) :: rest => if k' = k then some v else lookupShort rest k

/-- Error outcomes of resolve_state, one per exit of the source; panicked
models the expect("Room exists") abort. -/
inductive RErr
  | prevEventMissing
  | multiParentDbError
  | remoteFetchFailed
  | nonStatePdu
  | duplicateSlot
  | wrongCreateEvent
  | panicked
deriving DecidableEq, Repr

/-- External collaborators of resolve_state (pipeline/stateres.rs):
state_accessor.pdu_shortstatehash, state_accessor.state_full_ids (none
models an Err), timeline.get_pdu, short.get_or_create_shortstatekey (an
infallible interning function from (event type, state key) to the short
key), short.get_shortstatekey(RoomCreate, ""), the whole strategy-2 body
(fork-state assembly, auth chains and the external ruma state_res::resolve
behind the stateres_mutex) given the prev pdus — none models a db error
that aborts resolve_state, some none models a resolution failure that
falls through to the remote query, some (some st) a success — the remote
/state_ids response (none models a failed request), and
fetch_and_handle_outliers over the returned ids. -/
structure Env where
  pduShortstatehash : String → Option Nat
  stateFullIds : Nat → Option ShortStateMap
  getPdu : String → Option StatePdu
  shortKey : String → String → Nat
  roomCreateShortKey : Option Nat
  stateresV2 : List StatePdu → Option (Option ShortStateMap)
  remoteStateIds : Option (List String)
  fetchOutliers : List String → List StatePdu

/-- Embeds the /state_ids fallback's state-map construction
(pipeline/stateres.rs lines 220-239): each fetched pdu must be a state event
(else "Found non-state pdu in state events."), and a (type, state_key) slot
may not occur twice (else "State event's type and state_key combination
exists multiple times."). -/
def build_remote_go (env : Env) : List StatePdu → ShortStateMap → Except RErr ShortStateMap
  | [], acc => .ok acc
  | pdu :: rest, acc =>
    match pdu.state_key with
    | none => .error .nonStatePdu
    | some sk =>
      let k := env.shortKey pdu.kind sk
      if (lookupShort acc k).isSome then .error .duplicateSlot
      else build_remote_go env rest (insertShort acc k pdu.event_id)

/-- The loop of the /state_ids fallback, started on the empty map. -/
def build_remote_state (env : Env) (pdus : List StatePdu) : Except RErr ShortStateMap :=
  build_remote_go env pdus []

/-- Embeds resolve_state (pipeline/stateres.rs lines 21-265). Strategy 1
(single prev event with cached state): reuse the cached state and overlay
the predecessor's own state-event slot; a missing prev pdu aborts with
"Could not find prev event, but we know the state.". Strategy 2 (several
prev events): when every prev event and its short state hash are locally
known, delegate to the strategy-2 body (see Env.stateresV2). Strategy 3:
query /state_ids at the origin, build the snapshot, and adopt it only when
its m.room.create slot holds the locally known create event id. -/
def resolve_state (env : Env) (pdu : StatePdu) (createEventId : String) :
    Except RErr ShortStateMap :=
  let stateAtIncoming : Except RErr (Option ShortStateMap) :=
    match pdu.prev_events with
    | [prev] =>
      match env.pduShortstatehash prev with
      | some h =>
        match env.stateFullIds h with
        | some st =>
          match env.getPdu prev with
          | none => .error .prevEventMissing
          | some prevPdu =>
            match prevPdu.state_key with
            | some sk => .ok (some (insertShort st (env.shortKey prevPdu.kind sk) prev))
            | none => .ok (some st)
        | none => .ok none
      | none => .ok none
    | prevs =>
      if prevs.all (fun p => (env.getPdu p).isSome && (env.pduShortstatehash p).isSome) then
        match env.stateresV2 (prevs.filterMap env.getPdu) with
        | none => .error .multiParentDbError
        | some none => .ok none
        | some (some st) => .ok (some st)
      else .ok none
  match stateAtIncoming with
  | .error e => .error e
  | .ok (some st) => .ok st
  | .ok none =>
    match env.remoteStateIds with
    | none => .error .remoteFetchFailed
    | some ids =>
      match build_remote_state env (env.fetchOutliers ids) with
      | .error e => .error e
      | .ok st =>
        match env.roomCreateShortKey with
        | none => .error .panicked
        | some ck =>
          if lookupShort st ck = some createEventId then .ok st
          else .error .wrongCreateEvent

/-- The overlay of strategy 1: the predecessor's cached state with the
predecessor's own state-event slot (if any) now filled by the predecessor. -/
def overlayPrev (env : Env) (st : ShortStateMap) (prevPdu : StatePdu) (prev : String) :
    ShortStateMap :=
  match prevPdu.state_key with
  | some sk => insertShort st (env.shortKey prevPdu.kind sk) prev
  | none => st

/-- Sample collaborator record for the strategy-1 witness (Scenario A of the
spec): the single predecessor A is an m.room.name state event with
cached state mapping slot 1 (m.room.name, "") to an older name event N1. -/
def envA : Env :=
  { pduShortstatehash := fun id => if id = "$A" then some 10 else none,
    stateFullIds := fun h => if h = 10 then some [(0, "$create"), (1, "$N1")] else none,
    getPdu := fun id =>
      if id = "$A" then some ⟨"$A", "m.room.name", some "", ["$Z"]⟩ else none,
    shortKey := fun ty sk => if ty = "m.room.create" then 0 else if ty = "m.room.name" then 1 else 2,
    roomCreateShortKey := some 0,
    stateresV2 := fun _ => some none,
    remoteStateIds := none,
    fetchOutliers := fun _ => [] }

/-- Sample collaborator record for the remote-fallback witness: the single
prev event has no cached state, and the origin returns a snapshot whose
create slot is filled by the id passed to the test. -/
def envR (createInSnapshot : String) : Env :=
  { pduShortstatehash := fun _ => none,
    stateFullIds := fun _ => none,
    getPdu := fun _ => none,
    shortKey := fun ty sk => if ty = "m.room.create" then 0 else 1,
    roomCreateShortKey := some 0,
    stateresV2 := fun _ => some none,
    remoteStateIds := some ["$c", "$n"],
    fetchOutliers := fun _ =>
      [⟨createInSnapshot, "m.room.create", some "", []⟩,
       ⟨"$N1", "m.room.name", some "", []⟩] }

/-- Sample incoming event for the strategy-1 witness: a m.room.name event
with the single prev event A. -/
def pduEW : StatePdu := ⟨"$E", "m.room.name", some "", ["$A"]⟩

/-- Sample incoming event for the remote-fallback witness. -/
def pduRW : StatePdu := ⟨"$F", "m.room.message", none, ["$X"]⟩

end StateRes

namespace StateResV2

/-- Modelled from the spec: the strategy-2 conflict-resolution core lives in
the external ruma state_res crate and is not under src/. Following spec
section 4.3, a conflicted candidate carries its position in the
power-level-weighted reverse-topological order, its depth, its content-
derived (unique) event id, and the (type, state_key) slot it occupies. -/
structure ResEvent where
  powerLevel : Nat
  depth : Nat
  event_id : String
  kind : String
  state_key : String
deriving DecidableEq, Repr

/-- The deterministic ordering key of spec section 4.3 (a): power-level
weight, then depth, then the event id (hash) tie-break. The trailing slot
components never decide the order for real inputs, whose event ids are
unique; they only make the comparison a linear order on the model type. -/
def resKey (e : ResEvent) : Nat ×ₗ Nat ×ₗ String ×ₗ String ×ₗ String :=
  toLex (e.powerLevel, toLex (e.depth, toLex (e.event_id, toLex (e.kind, e.state_key))))

/-- Boolean form of the candidate ordering. -/
def resLE (a b : ResEvent) : Bool := decide (resKey a ≤ resKey b)

/-- A resolved state mapping (type, state_key) to an event id. -/
abbrev StateMap := List ((String × String) × String)

/-- Insert (overwrite) into a state mapping. -/
def insertSlot (m : StateMap) (slot : String × String) (id : String) : StateMap :=
  match m with
  | [] => [(slot, id)]
  | (s', v') :: rest => if s' = slot then (slot, id) :: rest else (s', v') :: insertSlot rest slot id

/-- Modelled from the spec (section 4.3 strategy 2 (a)): deterministically
order the conflicted candidates by the ordering key. -/
def auth_ordered (l : List ResEvent) : List ResEvent := l.mergeSort resLE

/-- Modelled from the spec (section 4.3 strategy 2 (b)): apply the ordered
candidates as a linear auth-checked sequence over the unconflicted base
state; a candidate is kept only if it passes authorization (the opaque
versioned rule function authCheck) against the state accumulated so far. -/
def resolve_v2 (authCheck : StateMap → ResEvent → Bool) (base : StateMap)
    (conflicted : List ResEvent) : StateMap :=
  (auth_ordered conflicted).foldl
    (fun st e => if authCheck st e then insertSlot st (e.kind, e.state_key) e.event_id else st)
    base

end StateResV2

namespace Sending

/-- C4: while a destination is Failed(n, t) and the elapsed time since t is
below min(30s * n^2, 24h), select_events refuses to start a request (it
returns no batch, marks nothing active and leaves the status unchanged) and
the periodic sweep does not pick the destination; moreover the bound after
3 failures is exactly 270 seconds. -/
theorem backoff_blocks_requests (kind : OutgoingKind) (n t now : Nat)
    (newEvents : List (SendingEventType × Bytes))
    (activeForKind : List SendingEventType) (edus : List SendingEventType)
    (h : now - t < minElapsedSecs n) :
    select_events kind (some (.failed n t)) newEvents activeForKind edus now =
        ⟨some (.failed n t), [], none⟩ ∧
      sweep_ready (.failed n t) now = false ∧
      minElapsedSecs 3 = 270 := by
  refine ⟨?_, ?_, by decide⟩
  · simp [select_events, h]
  · simp [sweep_ready, h]

/-- Witness for backoff_blocks_requests: destination with 3 consecutive
failures at time 0, queried at 269 s, i.e. one second before the 270 s
bound. -/
theorem backoff_blocks_requests_witness :
    (269 - 0 < minElapsedSecs 3) ∧
      (select_events (.normal "example.org") (some (.failed 3 0))
          [(.pdu [1], [0])] [] [] 269 =
        ⟨some (.failed 3 0), [], none⟩ ∧
      sweep_ready (.failed 3 0) 269 = false ∧
      minElapsedSecs 3 = 270) :=
  ⟨by decide,
    backoff_blocks_requests (.normal "example.org") 3 0 269 [(.pdu [1], [0])] [] []
      (by decide)⟩

/-- Number of recovered active requests belonging to one destination. -/
def countKind : List (Bytes × OutgoingKind × SendingEventType) → OutgoingKind → Nat
  | [], _ => 0
  | r :: rest, k => (if r.2.1 = k then 1 else 0) + countKind rest k

theorem countKind_le_length (l : List (Bytes × OutgoingKind × SendingEventType))
    (k : OutgoingKind) : countKind l k ≤ l.length := by
  induction l with
  | nil => simp [countKind]
  | cons r rest ih =>
    simp only [countKind, List.length_cons]
    split <;> omega

theorem lookupKind_setKind_same (m : List (OutgoingKind × List SendingEventType))
    (k : OutgoingKind) (v : List SendingEventType) :
    lookupKind (setKind m k v) k = v := by
  induction m with
  | nil => simp [setKind, lookupKind]
  | cons p rest ih =>
    by_cases h : p.1 = k
    · simp [setKind, lookupKind, h]
    · simp [setKind, lookupKind, h, ih]

theorem lookupKind_setKind_other (m : List (OutgoingKind × List SendingEventType))
    (k k' : OutgoingKind) (v : List SendingEventType) (hne : k' ≠ k) :
    lookupKind (setKind m k v) k' = lookupKind m k' := by
  have hkk : ¬ (k = k') := fun h => hne h.symm
  induction m with
  | nil => simp [setKind, lookupKind, hkk]
  | cons p rest ih =>
    by_cases h : p.1 = k
    · have hp : ¬ (p.1 = k') := by rw [h]; exact hkk
      simp [setKind, lookupKind, h, hkk, hp]
    · by_cases h' : p.1 = k'
      · simp [setKind, lookupKind, h, h', hne]
      · simp [setKind, lookupKind, h, h', ih]

theorem handler_init_go (active : List (Bytes × OutgoingKind × SendingEventType))
    (acc : List (OutgoingKind × List SendingEventType)) (del : List Bytes)
    (hbound : ∀ k, (lookupKind acc k).length + countKind active k ≤ 31) :
    (active.foldl handler_init_step (acc, del)).2 = del := by
  induction active generalizing acc del with
  | nil => rfl
  | cons r rest ih =>
    have hr := hbound r.2.1
    simp [countKind] at hr
    have hlen : ¬ ((lookupKind acc r.2.1).length > 30) := by omega
    simp only [List.foldl_cons, handler_init_step, if_neg hlen]
    apply ih
    intro q
    by_cases hq : q = r.2.1
    · subst hq
      rw [lookupKind_setKind_same]
      simp only [List.length_append, List.length_cons, List.length_nil]
      omega
    · rw [lookupKind_setKind_other _ _ _ _ hq]
      have hb := hbound q
      have hne : ¬ (r.2.1 = q) := fun h => hq h.symm
      simp only [countKind, if_neg hne] at hb
      omega

set_option maxRecDepth 10000 in
/-- C7 counterexample: a handler restart with 32 recovered active requests
for a single destination deletes the 32nd from the persistent queue without
delivering it (sending/mod.rs lines 137-144), so a durably queued item is
lost across a restart even though no successful transaction delivered it. -/
theorem restart_drops_excess_active :
    (handler_init (List.replicate 32
        (([5] : Bytes), OutgoingKind.normal "s", SendingEventType.pdu [1]))).2 = [[5]] := by
  decide

/-- C7 amended: a durably queued item is never deleted except after a
successful transaction that delivered it, or during handler-restart recovery
when a destination has accumulated more than 31 active items, in which case
the excess items are deleted with a warning. In particular the failure arm
never touches the db, and a restart where every destination holds at most 31
active items deletes nothing. -/
theorem no_deletion_on_failure_or_bounded_restart
    (active : List (Bytes × OutgoingKind × SendingEventType))
    (hbound : ∀ k, countKind active k ≤ 31)
    (kind : OutgoingKind) (st : HandlerState) (now : Nat) :
    (handler_init active).2 = [] ∧ (handle_response_err kind st now).db = st.db := by
  constructor
  · apply handler_init_go
    intro k
    have := hbound k
    simp [lookupKind]
    omega
  · rfl

/-- Witness for no_deletion_on_failure_or_bounded_restart: a restart with 31
active requests for one destination, and a failure response for a Running
destination. -/
theorem no_deletion_on_failure_or_bounded_restart_witness :
    (∀ k, countKind (List.replicate 31
        (([5] : Bytes), OutgoingKind.normal "s", SendingEventType.pdu [1])) k ≤ 31) ∧
    ((handler_init (List.replicate 31
        (([5] : Bytes), OutgoingKind.normal "s", SendingEventType.pdu [1]))).2 = [] ∧
      (handle_response_err (.normal "s")
        ⟨[(.normal "s", .running [])], ⟨[], []⟩⟩ 7).db =
        (⟨[(.normal "s", .running [])], ⟨[], []⟩⟩ : HandlerState).db) :=
  have hb : ∀ k, countKind (List.replicate 31
      (([5] : Bytes), OutgoingKind.normal "s", SendingEventType.pdu [1])) k ≤ 31 :=
    fun k => le_trans (countKind_le_length _ k) (by simp)
  ⟨hb, no_deletion_on_failure_or_bounded_restart _ hb (.normal "s")
    ⟨[(.normal "s", .running [])], ⟨[], []⟩⟩ 7⟩

/-- C8 failing input: destination with a transaction in flight
(status Running, one active item in the db); an item enqueued during the
flight is folded into the in-memory Running vector (no batch is returned)
but also stays durably queued; on success the single follow-up transaction
contains that item twice, once from memory and once from the db queue, so an
item is sent twice. -/
theorem success_follow_up_duplicates :
    ((enqueue_and_receive (.normal "s") (.pdu [7]) [2] [] 0
        ⟨[(.normal "s", .running [])], ⟨[], [(.normal "s", .pdu [1], [0])]⟩⟩).2 = none) ∧
    ((handle_response_ok (.normal "s")
        (enqueue_and_receive (.normal "s") (.pdu [7]) [2] [] 0
          ⟨[(.normal "s", .running [])], ⟨[], [(.normal "s", .pdu [1], [0])]⟩⟩).1).2 =
      some [.pdu [7], .pdu [7]]) := by
  constructor <;> rfl

/-- C10: the outbound transaction id computed by handle_events is a pure
function of the batch payload bytes, for both the appservice and the
federation (Normal) branches: batches with equal payload byte sequences get
equal transaction ids, whatever hash and base64 engine are plugged in. -/
theorem txn_id_deterministic (hash : List Bytes → Bytes) (encode : Bytes → String)
    (es1 es2 : List SendingEventType)
    (h : es1.map event_bytes = es2.map event_bytes) :
    appservice_txn_id hash encode es1 = appservice_txn_id hash encode es2 ∧
      normal_txn_id hash encode es1 = normal_txn_id hash encode es2 := by
  unfold appservice_txn_id normal_txn_id
  rw [h]
  exact ⟨rfl, rfl⟩

/-- Witness for txn_id_deterministic: a one-pdu batch and a one-edu batch
with the same payload bytes receive the same transaction id under the
modelled hash and a concrete encoder. -/
theorem txn_id_deterministic_witness :
    ([SendingEventType.pdu [1, 2]].map event_bytes =
        [SendingEventType.edu [1, 2]].map event_bytes) ∧
    (appservice_txn_id calculate_hash (fun b => String.intercalate "," (b.map toString))
        [.pdu [1, 2]] =
      appservice_txn_id calculate_hash (fun b => String.intercalate "," (b.map toString))
        [.edu [1, 2]] ∧
      normal_txn_id calculate_hash (fun b => String.intercalate "," (b.map toString))
        [.pdu [1, 2]] =
      normal_txn_id calculate_hash (fun b => String.intercalate "," (b.map toString))
        [.edu [1, 2]]) :=
  ⟨by decide, txn_id_deterministic calculate_hash _ _ _ (by decide)⟩

/-- C1: at the concrete state where a retry transaction for a destination is
in flight (status Retrying(1)), select_events nevertheless returns a batch
for a newly enqueued item, so the handler pushes a second concurrent
handle_events call for the same destination; in contrast, under Running the
item is folded into the status and no batch is returned. The claim states
that both Running and Retrying fold the item into the pending queue, which
the Retrying case violates. -/
theorem retrying_spawns_second_transaction :
    (select_events (.normal "example.org") (some (.retrying 1))
        [(.pdu [7], [3])] [] [] 100 =
      ⟨some (.retrying 1), [(.pdu [7], [3])], some [.pdu [7]]⟩) ∧
    (select_events (.normal "example.org") (some (.running [.pdu [9]]))
        [(.pdu [7], [3])] [] [] 100 =
      ⟨some (.running [.pdu [9], .pdu [7]]), [], none⟩) := by
  constructor <;> rfl

end Sending

namespace Validation

/-- C2: when the signature verifies but the content hash does not
(Verified::Signatures), validate_pdu returns the redacted form of the event,
and when the event id is already known locally (in particular as a
non-redacted event) it returns an error instead, so a previously accepted
event is never replaced by a redacted relabeling of the same id. -/
theorem redaction_safety (env : Env) (content : CJson)
    (hfmt : env.checkFormat (removeKey content "unsigned") = true)
    (hkeys : env.fetchSigningKeysOk = true)
    (ts : Int)
    (hts : getKey (removeKey content "unsigned") "origin_server_ts" = some (.int ts))
    (htsnn : ¬ ts < 0)
    (hver : env.verify (removeKey content "unsigned") = some .signatures) :
    (∀ obj, env.redactFn (removeKey content "unsigned") = some obj →
        env.knownPduJson = false → validate_pdu env content = .ok obj) ∧
      (env.knownPduJson = true → ∀ r, validate_pdu env content ≠ .ok r) := by
  constructor
  · intro obj hobj hknown
    simp [validate_pdu, hfmt, hkeys, hts, htsnn, hver, hobj, hknown]
  · intro hknown r
    cases hred : env.redactFn (removeKey content "unsigned") with
    | none => simp [validate_pdu, hfmt, hkeys, hts, htsnn, hver, hred]
    | some obj => simp [validate_pdu, hfmt, hkeys, hts, htsnn, hver, hred, hknown]

/-- Witness for redaction_safety: a concrete content whose hash check fails
while the signature verifies, with the event id unknown locally. -/
theorem redaction_safety_witness :
    (∀ obj, (envW false).redactFn (removeKey contentW "unsigned") = some obj →
        (envW false).knownPduJson = false → validate_pdu (envW false) contentW = .ok obj) ∧
      ((envW false).knownPduJson = true → ∀ r, validate_pdu (envW false) contentW ≠ .ok r) :=
  redaction_safety (envW false) contentW rfl rfl 5 rfl (by decide) rfl

end Validation

namespace Auth

theorem auth_outcome_if (a b : Bool) :
    (if (!a || !b) then AuthOutcome.authCheckFailed else AuthOutcome.accepted) =
      (if a && b then AuthOutcome.accepted else AuthOutcome.authCheckFailed) := by
  cases a <;> cases b <;> rfl

theorem insert_auth_events_eq (store : Store) (ids : List String)
    (hsk : storedAuthEventsHaveStateKeys store ids = true) :
    ∀ m, insert_auth_events store m ids =
      some ((ids.filterMap (getStore store)).foldl insertFound m) := by
  induction ids with
  | nil => intro m; rfl
  | cons id rest ih =>
    intro m
    rw [storedAuthEventsHaveStateKeys, List.all_cons, Bool.and_eq_true] at hsk
    obtain ⟨hhead, htail⟩ := hsk
    cases hg : getStore store id with
    | none =>
      simp only [insert_auth_events, insert_auth_event, hg, List.filterMap_cons]
      exact ih htail m
    | some e =>
      rw [hg] at hhead
      have hhead2 : e.state_key.isSome = true := hhead
      cases hske : e.state_key with
      | none => rw [hske] at hhead2; simp at hhead2
      | some sk =>
        simp only [insert_auth_events, insert_auth_event, hg, hske, List.filterMap_cons]
        rw [ih htail]
        simp [insertFound, hske]

/-- C9: any id in pdu.auth_events with no locally stored event is silently
omitted: the insertion helper returns Ok with the maps unchanged, the built
maps contain exactly the locally found auth events, and authorize_pdu is
decided purely by the two rule checks over that partial map - it never
fails with a missing-dependency error. -/
theorem missing_auth_events_ignored (env : AuthEnv) (pdu : PduEvent)
    (hsk : storedAuthEventsHaveStateKeys env.store pdu.auth_events = true)
    (hflag : env.roomCreateAsRoomId = false) :
    (∀ id m, getStore env.store id = none → insert_auth_event env.store m id = some m) ∧
      insert_auth_events env.store ⟨[], []⟩ pdu.auth_events =
        some (foundAuthMaps (pdu.auth_events.filterMap (getStore env.store))) ∧
      authorize_pdu env pdu =
        (if env.checkIndep (fun id =>
              lookupId (foundAuthMaps (pdu.auth_events.filterMap (getStore env.store))).byEventId id) &&
            env.checkDep (fun k s =>
              lookupTK (foundAuthMaps (pdu.auth_events.filterMap (getStore env.store))).byTypeKey (k, s))
          then .accepted else .authCheckFailed) := by
  have hbuild := insert_auth_events_eq env.store pdu.auth_events hsk ⟨[], []⟩
  refine ⟨fun id m hm => by simp [insert_auth_event, hm], hbuild, ?_⟩
  unfold authorize_pdu
  rw [hbuild, hflag]
  exact auth_outcome_if _ _

/-- Witness for missing_auth_events_ignored: a pdu with one stored and one
missing auth event; the missing id is skipped and the checks run over the
map holding only the stored event. -/
theorem missing_auth_events_ignored_witness :
    (storedAuthEventsHaveStateKeys envAuthW.store pduW.auth_events = true) ∧
      ((∀ id m, getStore envAuthW.store id = none →
          insert_auth_event envAuthW.store m id = some m) ∧
        insert_auth_events envAuthW.store ⟨[], []⟩ pduW.auth_events =
          some (foundAuthMaps (pduW.auth_events.filterMap (getStore envAuthW.store))) ∧
        authorize_pdu envAuthW pduW =
          (if envAuthW.checkIndep (fun id =>
                lookupId (foundAuthMaps (pduW.auth_events.filterMap (getStore envAuthW.store))).byEventId id) &&
              envAuthW.checkDep (fun k s =>
                lookupTK (foundAuthMaps (pduW.auth_events.filterMap (getStore envAuthW.store))).byTypeKey (k, s))
            then .accepted else .authCheckFailed)) :=
  ⟨by decide, missing_auth_events_ignored envAuthW pduW (by decide) rfl⟩

end Auth

namespace StateRes

theorem lookupShort_insertShort_same (m : ShortStateMap) (k : Nat) (v : String) :
    lookupShort (insertShort m k v) k = some v := by
  induction m with
  | nil => simp [insertShort, lookupShort]
  | cons p rest ih =>
    by_cases h : p.1 = k
    · simp [insertShort, lookupShort, h]
    · simp [insertShort, lookupShort, h, ih]

/-- C5: for an event with exactly one prev event whose state is cached,
resolve_state returns the predecessor's cached state overlaid with the
predecessor's own state-event effect; in particular when the predecessor
has a state key, the slot (predecessor.kind, predecessor.state_key) of the
returned mapping holds the predecessor's event id. -/
theorem single_prev_cached_state (env : Env) (pdu : StatePdu) (createId : String)
    (prev : String) (h : Nat) (st : ShortStateMap) (prevPdu : StatePdu)
    (hprev : pdu.prev_events = [prev])
    (hh : env.pduShortstatehash prev = some h)
    (hst : env.stateFullIds h = some st)
    (hp : env.getPdu prev = some prevPdu) :
    resolve_state env pdu createId = .ok (overlayPrev env st prevPdu prev) ∧
      (∀ sk, prevPdu.state_key = some sk →
        lookupShort (overlayPrev env st prevPdu prev) (env.shortKey prevPdu.kind sk) =
          some prev) := by
  constructor
  · cases hske : prevPdu.state_key with
    | none => simp [resolve_state, hprev, hh, hst, hp, hske, overlayPrev]
    | some sk => simp [resolve_state, hprev, hh, hst, hp, hske, overlayPrev]
  · intro sk hske
    rw [overlayPrev, hske]
    exact lookupShort_insertShort_same st (env.shortKey prevPdu.kind sk) prev

/-- Witness for single_prev_cached_state, the spec's Scenario A: E has the
single prev event A, an m.room.name state event with cached state; the
resolved state maps the (m.room.name, "") slot to A. -/
theorem single_prev_cached_state_witness :
    (pduEW.prev_events = ["$A"] ∧
        envA.pduShortstatehash "$A" = some 10 ∧
        envA.stateFullIds 10 = some [(0, "$create"), (1, "$N1")] ∧
        envA.getPdu "$A" = some ⟨"$A", "m.room.name", some "", ["$Z"]⟩) ∧
      (resolve_state envA pduEW "$create" = .ok [(0, "$create"), (1, "$A")] ∧
        lookupShort [(0, "$create"), (1, "$A")] 1 = some "$A") :=
  have hA := single_prev_cached_state envA pduEW "$create" "$A" 10
    [(0, "$create"), (1, "$N1")] ⟨"$A", "m.room.name", some "", ["$Z"]⟩ rfl rfl rfl rfl
  ⟨⟨rfl, rfl, rfl, rfl⟩, ⟨hA.1, hA.2 "" rfl⟩⟩

/-- C6: once resolve_state falls back to the remote /state_ids query, the
fetched snapshot is adopted exactly when its m.room.create slot holds the
locally known create event id: an absent or different id yields an error
and the snapshot is not adopted. -/
theorem remote_snapshot_create_check (env : Env) (pdu : StatePdu) (createId : String)
    (prev : String)
    (hprev : pdu.prev_events = [prev])
    (hh : env.pduShortstatehash prev = none)
    (ids : List String) (hids : env.remoteStateIds = some ids)
    (ck : Nat) (hck : env.roomCreateShortKey = some ck) :
    resolve_state env pdu createId =
        (match build_remote_state env (env.fetchOutliers ids) with
          | .error e => .error e
          | .ok st =>
            if lookupShort st ck = some createId then .ok st
            else .error .wrongCreateEvent) ∧
      (∀ st, resolve_state env pdu createId = .ok st → lookupShort st ck = some createId) := by
  have hchar : resolve_state env pdu createId =
      (match build_remote_state env (env.fetchOutliers ids) with
        | .error e => .error e
        | .ok st =>
          if lookupShort st ck = some createId then .ok st
          else .error .wrongCreateEvent) := by
    simp only [resolve_state, hprev, hh, hids, hck]
  refine ⟨hchar, fun st hok => ?_⟩
  rw [hchar] at hok
  cases hb : build_remote_state env (env.fetchOutliers ids) with
  | error e =>
    rw [hb] at hok
    have hok2 : (Except.error e : Except RErr ShortStateMap) = .ok st := hok
    cases hok2
  | ok st' =>
    rw [hb] at hok
    have hok2 : (if lookupShort st' ck = some createId then (Except.ok st' : Except RErr ShortStateMap)
        else .error .wrongCreateEvent) = .ok st := hok
    by_cases hl : lookupShort st' ck = some createId
    · rw [if_pos hl] at hok2
      cases hok2
      exact hl
    · rw [if_neg hl] at hok2
      cases hok2

/-- Witness for remote_snapshot_create_check: the origin returns a snapshot
whose create slot holds a different event id; the snapshot is rejected. -/
theorem remote_snapshot_create_check_witness :
    (pduRW.prev_events = ["$X"] ∧
        (envR "$evil").pduShortstatehash "$X" = none ∧
        (envR "$evil").remoteStateIds = some ["$c", "$n"] ∧
        (envR "$evil").roomCreateShortKey = some 0) ∧
      resolve_state (envR "$evil") pduRW "$create" = .error .wrongCreateEvent :=
  have hR := remote_snapshot_create_check (envR "$evil") pduRW "$create" "$X" rfl rfl
    ["$c", "$n"] rfl 0 rfl
  ⟨⟨rfl, rfl, rfl, rfl⟩, hR.1⟩

end StateRes

namespace StateResV2

theorem resKey_inj (a b : ResEvent) (h : resKey a = resKey b) : a = b := by
  cases a
  cases b
  simp only [resKey, toLex_inj, Prod.mk.injEq] at h
  obtain ⟨h1, h2, h3, h4, h5⟩ := h
  simp [h1, h2, h3, h4, h5]

theorem resLE_trans_lemma (a b c : ResEvent)
    (hab : resLE a b = true) (hbc : resLE b c = true) : resLE a c = true := by
  simp only [resLE, decide_eq_true_eq] at *
  exact le_trans hab hbc

theorem resLE_total_lemma (a b : ResEvent) : (resLE a b || resLE b a) = true := by
  simp only [resLE, Bool.or_eq_true, decide_eq_true_eq]
  exact le_total (resKey a) (resKey b)

theorem resLE_antisymm_lemma (a b : ResEvent)
    (hab : resLE a b = true) (hba : resLE b a = true) : a = b := by
  simp only [resLE, decide_eq_true_eq] at hab hba
  exact resKey_inj a b (le_antisymm hab hba)

/-- C3: the strategy-2 conflict resolution is deterministic in arrival
order: on the same base state, presenting the same conflicting candidates
in any order yields the identical final (type, key) to event-id mapping,
for every authorization rule function. -/
theorem resolve_v2_order_deterministic (authCheck : StateMap → ResEvent → Bool)
    (base : StateMap) (l1 l2 : List ResEvent) (h : l1.Perm l2) :
    resolve_v2 authCheck base l1 = resolve_v2 authCheck base l2 := by
  have hord : auth_ordered l1 = auth_ordered l2 := by
    haveI : IsAntisymm ResEvent (fun a b => resLE a b = true) :=
      ⟨fun a b hab hba => resLE_antisymm_lemma a b hab hba⟩
    refine List.eq_of_perm_of_sorted
      (r := fun a b => resLE a b = true) ?_ ?_ ?_
    · exact ((List.mergeSort_perm l1 resLE).trans h).trans (List.mergeSort_perm l2 resLE).symm
    · exact List.sorted_mergeSort resLE_trans_lemma resLE_total_lemma l1
    · exact List.sorted_mergeSort resLE_trans_lemma resLE_total_lemma l2
  rw [resolve_v2, resolve_v2, hord]

/-- Witness for resolve_v2_order_deterministic: two conflicting candidates
presented in both orders resolve to the same state mapping. -/
theorem resolve_v2_order_deterministic_witness :
    ([(⟨5, 1, "$a", "m.room.name", ""⟩ : ResEvent), ⟨3, 2, "$b", "m.room.topic", ""⟩].Perm
        [⟨3, 2, "$b", "m.room.topic", ""⟩, ⟨5, 1, "$a", "m.room.name", ""⟩]) ∧
      resolve_v2 (fun _ _ => true) []
          [⟨5, 1, "$a", "m.room.name", ""⟩, ⟨3, 2, "$b", "m.room.topic", ""⟩] =
        resolve_v2 (fun _ _ => true) []
          [⟨3, 2, "$b", "m.room.topic", ""⟩, ⟨5, 1, "$a", "m.room.name", ""⟩] :=
  ⟨by decide,
    resolve_v2_order_deterministic (fun _ _ => true) []
      [⟨5, 1, "$a", "m.room.name", ""⟩, ⟨3, 2, "$b", "m.room.topic", ""⟩]
      [⟨3, 2, "$b", "m.room.topic", ""⟩, ⟨5, 1, "$a", "m.room.name", ""⟩]
      (by decide)⟩

end StateResV2
